import Mathlib

/-!
Verification of the Outreach live-conversation pipeline core.

Shallow embedding of the Rust sources under `apps/desktop/src`:
Rust `String`/`&str` is modelled as `List Char` (`Str`), `f32` samples as
exact rationals `ℚ`, machine integers as `Int`/`Nat`, and fallible or
panicking operations as `Option`/`Except`.  Clock reads (`Utc::now()`) are
passed in as explicit `Nat` parameters.  Every definition is translated
from the corresponding Rust function, named after it where Lean allows.
-/

namespace Outreach

/-- Rust strings modelled as lists of unicode scalar values. -/
abbrev Str := List Char

/-- Rust `str::to_lowercase` (ASCII-relevant part; all keyword sets in the
sources are ASCII, where Unicode and ASCII lowercasing agree). -/
def lowerStr (s : Str) : Str := s.map Char.toLower

/-- Does `hay` start with `pat`?  (helper for substring search). -/
def strStartsWith : Str → Str → Bool
  | _, [] => true
  | [], _ :: _ => false
  | a :: as, b :: bs => a == b && strStartsWith as bs

/-- Rust `str::contains(pat)`: `pat` occurs contiguously in `hay`. -/
def containsSub : Str → Str → Bool
  | hay, pat =>
    strStartsWith hay pat ||
      match hay with
      | [] => false
      | _ :: t => containsSub t pat

/-- Whitespace test used by `split_whitespace` (ASCII whitespace; the
sources only ever see ASCII separators in the texts at issue). -/
def isWsChar (c : Char) : Bool :=
  c == ' ' || c == '\t' || c == '\n' || c == '\r'

/-- Auxiliary word counter: `inWord` says whether the previous character
was inside a word. -/
def wordCountAux : Str → Bool → Nat
  | [], _ => 0
  | c :: t, inW =>
    if isWsChar c then wordCountAux t false
    else (if inW then 0 else 1) + wordCountAux t true

/-- Rust `text.split_whitespace().count()`. -/
def wordCount (s : Str) : Nat := wordCountAux s false

/-- Rust `text.matches(c).count()` for a single character pattern. -/
def countChar (c : Char) (s : Str) : Nat := s.count c

/-- `Vec::join(sep)` on strings. -/
def joinSep (sep : Str) : List Str → Str
  | [] => []
  | [x] => x
  | x :: y :: t => x ++ sep ++ joinSep sep (y :: t)

/-! ## `brain/hybrid_router.rs` -/

/-- `Complexity` (derives `Ord` in source, `Simple < Moderate < Complex <
Critical`). -/
inductive Complexity
  | Simple
  | Moderate
  | Complex
  | Critical
deriving DecidableEq, Repr

/-- Rank realising the derived `Ord` instance. -/
def Complexity.rank : Complexity → Nat
  | .Simple => 0
  | .Moderate => 1
  | .Complex => 2
  | .Critical => 3

/-- The derived `<` on `Complexity`. -/
def Complexity.lt (a b : Complexity) : Bool := a.rank < b.rank

/-- `complex_keywords` array from `Complexity::from_text`. -/
def complexKeywords : List Str :=
  [ "why".toList, "explain".toList, "compare".toList, "analyze".toList,
    "evaluate".toList, "justify".toList, "critique".toList,
    "strategy".toList, "negotiate".toList, "convince".toList,
    "objection".toList, "budget".toList, "decision".toList,
    "stakeholder".toList, "executive".toList, "contract".toList,
    "legal".toList, "compliance".toList, "security".toList,
    "architecture".toList, "scale".toList ]

/-- `simple_keywords` array from `Complexity::from_text`. -/
def simpleKeywords : List Str :=
  [ "what is".toList, "how do".toList, "when".toList, "where".toList,
    "who".toList, "list".toList, "define".toList, "describe".toList,
    "tell me about".toList, "features".toList ]

/-- The running `complexity_score` of `Complexity::from_text` (an `i32`,
modelled as `Int`): the two keyword loops, the word-count bonus, and the
multiple-question-mark bonus. -/
def complexityScore (text : Str) : Int :=
  let textLower := lowerStr text
  let s1 := complexKeywords.foldl
    (fun acc k => if containsSub textLower k then acc + 2 else acc) 0
  let s2 := simpleKeywords.foldl
    (fun acc k => if containsSub textLower k then acc - 1 else acc) s1
  let wc := wordCount text
  let s3 := if wc > 30 then s2 + 2 else if wc > 15 then s2 + 1 else s2
  if countChar '?' text > 1 then s3 + 1 else s3

/-- `Complexity::from_text`: score then bucket
(`..=0 / 1..=3 / 4..=6 / _`). -/
def Complexity.fromText (text : Str) : Complexity :=
  let score := complexityScore text
  if score ≤ 0 then .Simple
  else if score ≤ 3 then .Moderate
  else if score ≤ 6 then .Complex
  else .Critical

/-- `AIProvider` with its model-name payloads. -/
inductive AIProvider
  | Local (model : Str)
  | OpenAI (model : Str)
  | Anthropic (model : Str)
  | Google (model : Str)
deriving DecidableEq, Repr

/-- `AIProvider::is_local`. -/
def AIProvider.is_local : AIProvider → Bool
  | .Local _ => true
  | _ => false

/-- `RoutingStrategy` (default `Smart`). -/
inductive RoutingStrategy
  | AlwaysLocal
  | AlwaysCloud
  | Smart
  | LocalWithFallback
  | SpeedFirst
  | QualityFirst
deriving DecidableEq, Repr

/-- `HybridRouterConfig` (the `Duration` field is irrelevant to routing and
omitted from claims; kept as a plain `Nat` of milliseconds). -/
structure HybridRouterConfig where
  strategy : RoutingStrategy
  local_model : Str
  openai_model : Str
  anthropic_model : Str
  google_model : Str
  openai_key : Option Str
  anthropic_key : Option Str
  google_key : Option Str
  local_timeout_ms : Nat
  cloud_threshold : Complexity
  prefer_local_modes : List Str
deriving DecidableEq, Repr

/-- `HybridRouterConfig::default()`. -/
def HybridRouterConfig.default : HybridRouterConfig where
  strategy := .Smart
  local_model := "llama3.1:8b".toList
  openai_model := "gpt-4o-mini".toList
  anthropic_model := "claude-3-5-sonnet-20241022".toList
  google_model := "gemini-2.0-flash-exp".toList
  openai_key := none
  anthropic_key := none
  google_key := none
  local_timeout_ms := 5000
  cloud_threshold := .Moderate
  prefer_local_modes := ["technical".toList]

/-- `HybridRouter`: configuration plus the cached local-liveness flag. -/
structure HybridRouter where
  config : HybridRouterConfig
  local_available : Bool
deriving DecidableEq, Repr

/-- `HybridRouter::best_cloud_provider`: Google, then OpenAI, then
Anthropic, falling back to Local when no cloud key is set. -/
def HybridRouter.best_cloud_provider (r : HybridRouter) : AIProvider :=
  if r.config.google_key.isSome then
    .Google r.config.google_model
  else if r.config.openai_key.isSome then
    .OpenAI r.config.openai_model
  else if r.config.anthropic_key.isSome then
    .Anthropic r.config.anthropic_model
  else
    .Local r.config.local_model

/-- `HybridRouter::select_provider` (the `mode` argument is unused by the
source body but kept for signature fidelity). -/
def HybridRouter.select_provider (r : HybridRouter) (text : Str) (_mode : Str) :
    AIProvider :=
  let complexity := Complexity.fromText text
  match r.config.strategy with
  | .AlwaysLocal => .Local r.config.local_model
  | .AlwaysCloud => r.best_cloud_provider
  | .Smart =>
    if complexity.lt r.config.cloud_threshold then
      if r.local_available then .Local r.config.local_model
      else r.best_cloud_provider
    else r.best_cloud_provider
  | .LocalWithFallback =>
    if r.local_available then .Local r.config.local_model
    else r.best_cloud_provider
  | .SpeedFirst =>
    if r.local_available then .Local r.config.local_model
    else if r.config.google_key.isSome then .Google r.config.google_model
    else if r.config.openai_key.isSome then .OpenAI ("gpt-4o-mini".toList)
    else .Anthropic r.config.anthropic_model
  | .QualityFirst =>
    if r.config.anthropic_key.isSome then .Anthropic r.config.anthropic_model
    else if r.config.openai_key.isSome then .OpenAI ("gpt-4o".toList)
    else if r.config.google_key.isSome then .Google r.config.google_model
    else .Local r.config.local_model

/-! ## `capture/transcript.rs` -/

/-- `TranscriptSegment` (the `DateTime<Utc>` timestamp is a `Nat`, `f32`
confidence an exact `ℚ`). -/
structure TranscriptSegment where
  text : Str
  confidence : ℚ
  is_final : Bool
  speaker : Option Str
  timestamp : Nat
deriving DecidableEq, Repr

/-- The `while segments.len() > max_segments { segments.pop_front() }`
trimming loop. -/
def popWhileOver (m : Nat) : List TranscriptSegment → List TranscriptSegment
  | [] => []
  | a :: t => if (a :: t).length > m then popWhileOver m t else a :: t

/-- `TranscriptBuffer` state: the finals deque, the single interim slot,
and the bound. -/
structure TranscriptBuffer where
  segments : List TranscriptSegment
  interim : Option TranscriptSegment
  max_segments : Nat
deriving DecidableEq, Repr

/-- `TranscriptBuffer::new`. -/
def TranscriptBuffer.new (max_segments : Nat) : TranscriptBuffer :=
  { segments := [], interim := none, max_segments }

/-- `TranscriptBuffer::add`. -/
def TranscriptBuffer.add (b : TranscriptBuffer) (segment : TranscriptSegment) :
    TranscriptBuffer :=
  if segment.is_final then
    { b with
      interim := none
      segments := popWhileOver b.max_segments (b.segments ++ [segment]) }
  else
    { b with interim := some segment }

/-- `TranscriptBuffer::get_current_text`: finals then interim, joined by a
single space. -/
def TranscriptBuffer.get_current_text (b : TranscriptBuffer) : Str :=
  let parts := b.segments.map (·.text)
  let parts := match b.interim with
    | some i => parts ++ [i.text]
    | none => parts
  joinSep (" ".toList) parts

/-- `TranscriptBuffer::get_final_text`. -/
def TranscriptBuffer.get_final_text (b : TranscriptBuffer) : Str :=
  joinSep (" ".toList) (b.segments.map (·.text))

/-- `TranscriptBuffer::clear`. -/
def TranscriptBuffer.clear (b : TranscriptBuffer) : TranscriptBuffer :=
  { b with segments := [], interim := none }

/-- UTF-8 byte length of a modelled Rust string (`String::len`). -/
def byteLen (s : Str) : Nat := (s.map Char.utf8Size).sum

/-- Rust byte slicing `&text[i..]`: `some` suffix when byte index `i` is a
character boundary, `none` when the slice would panic. -/
def dropBytes : Nat → Str → Option Str
  | 0, s => some s
  | _ + 1, [] => none
  | n + 1, c :: t =>
    if c.utf8Size ≤ n + 1 then dropBytes (n + 1 - c.utf8Size) t
    else none

/-- `TranscriptBuffer::get_tail`: whole text when it fits, otherwise
`"..."` plus the last `char_limit` bytes; `none` models the byte-slicing
panic on a non-boundary index. -/
def TranscriptBuffer.get_tail (b : TranscriptBuffer) (char_limit : Nat) :
    Option Str :=
  let text := b.get_current_text
  if byteLen text ≤ char_limit then some text
  else
    match dropBytes (byteLen text - char_limit) text with
    | some suffix => some ("...".toList ++ suffix)
    | none => none

/-! ## `brain/context.rs` -/

/-- `Speaker`. -/
inductive Speaker
  | Them
  | Me
deriving DecidableEq, Repr

/-- `Speaker::label`. -/
def Speaker.label : Speaker → Str
  | .Them => "Them".toList
  | .Me => "Me".toList

/-- `ConversationTurn`. -/
structure ConversationTurn where
  speaker : Speaker
  text : Str
  timestamp : Nat
  intent : Option Str
deriving DecidableEq, Repr

/-- The `while turns.len() > max_turns { turns.pop_front() }` loop of
`ConversationContext::add_turn`. -/
def popTurnsWhileOver (m : Nat) : List ConversationTurn → List ConversationTurn
  | [] => []
  | a :: t => if (a :: t).length > m then popTurnsWhileOver m t else a :: t

/-- `ConversationContext` state. -/
structure ConversationContext where
  turns : List ConversationTurn
  max_turns : Nat
  mode_context : Str
  key_facts : List Str
  objections_raised : List Str
deriving DecidableEq, Repr

/-- `ConversationContext::new`. -/
def ConversationContext.new (max_turns : Nat) : ConversationContext :=
  { turns := [], max_turns, mode_context := [], key_facts := [],
    objections_raised := [] }

/-- `ConversationContext::set_mode_context`. -/
def ConversationContext.set_mode_context (c : ConversationContext) (ctx : Str) :
    ConversationContext :=
  { c with mode_context := ctx }

/-- `ConversationContext::add_turn` (private helper). -/
def ConversationContext.add_turn (c : ConversationContext)
    (turn : ConversationTurn) : ConversationContext :=
  { c with turns := popTurnsWhileOver c.max_turns (c.turns ++ [turn]) }

/-- `ConversationContext::add_their_turn` (`Utc::now()` passed as `now`). -/
def ConversationContext.add_their_turn (c : ConversationContext) (text : Str)
    (intent : Option Str) (now : Nat) : ConversationContext :=
  c.add_turn { speaker := .Them, text, timestamp := now, intent }

/-- `ConversationContext::add_my_turn`. -/
def ConversationContext.add_my_turn (c : ConversationContext) (text : Str)
    (now : Nat) : ConversationContext :=
  c.add_turn { speaker := .Me, text, timestamp := now, intent := none }

/-- `ConversationContext::record_objection`. -/
def ConversationContext.record_objection (c : ConversationContext)
    (objection : Str) : ConversationContext :=
  { c with objections_raised := c.objections_raised ++ [objection] }

/-- `ConversationContext::add_key_fact`. -/
def ConversationContext.add_key_fact (c : ConversationContext) (fact : Str) :
    ConversationContext :=
  { c with key_facts := c.key_facts ++ [fact] }

/-- `ConversationContext::get_history_string`: `"<label>: <text>"` lines
joined by `"\n"`. -/
def ConversationContext.get_history_string (c : ConversationContext) : Str :=
  joinSep ("\n".toList)
    (c.turns.map (fun turn => turn.speaker.label ++ ": ".toList ++ turn.text))

/-- `ConversationContext::get_full_context`: mode context, then the key
facts block when non-empty, then the objections block when non-empty. -/
def ConversationContext.get_full_context (c : ConversationContext) : Str :=
  let ctx := c.mode_context
  let ctx :=
    if c.key_facts.isEmpty then ctx
    else c.key_facts.foldl (fun acc fact => acc ++ "\n- ".toList ++ fact)
      (ctx ++ "\n\nKey facts established:".toList)
  if c.objections_raised.isEmpty then ctx
  else c.objections_raised.foldl (fun acc obj => acc ++ "\n- ".toList ++ obj)
    (ctx ++ "\n\nObjections raised so far:".toList)

/-- `ConversationContext::clear`: turns, key facts and objections emptied;
`mode_context` (and the bound) untouched. -/
def ConversationContext.clear (c : ConversationContext) : ConversationContext :=
  { c with turns := [], key_facts := [], objections_raised := [] }

/-! ## `flash/bullet_extractor.rs` -/

/-- `StatementType` (serde `other` maps unknown tags to `Unknown`). -/
inductive StatementType
  | Question
  | Objection
  | Statement
  | BuyingSignal
  | Technical
  | SmallTalk
  | Unknown
deriving DecidableEq, Repr

/-- `Urgency`. -/
inductive Urgency
  | AnswerNow
  | CanElaborate
  | JustListening
  | Unknown
deriving DecidableEq, Repr

/-- `Bullet` (`priority` is a `u8`; values relevant here are small, so a
plain `Nat` with the same order). -/
structure Bullet where
  point : Str
  priority : Nat
deriving DecidableEq, Repr

/-- `FlashAnalysis`. -/
structure FlashAnalysis where
  summary : Str
  bullets : List Bullet
  statement_type : StatementType
  urgency : Urgency
deriving DecidableEq, Repr

/-- `extract_bullets`: the bullets stably sorted by priority
(`sort_by_key(|b| b.priority)`); note: no truncation. -/
def extract_bullets (analysis : FlashAnalysis) : List Bullet :=
  analysis.bullets.mergeSort (fun a b => decide (a.priority ≤ b.priority))

/-- Boolean check that a bullet list is sorted by priority ascending. -/
def isSortedByPriority : List Bullet → Bool
  | [] => true
  | [_] => true
  | a :: b :: t => decide (a.priority ≤ b.priority) && isSortedByPriority (b :: t)

/-! ## `brain/intent.rs` -/

/-- `IntentCategory`. -/
inductive IntentCategory
  | Pricing
  | Security
  | Timeline
  | Competition
  | Technical
  | BuyingSignal
  | Objection
  | Stalling
  | Procurement
  | SmallTalk
  | Other
deriving DecidableEq, Repr

/-- Rust `format!("{:?}", category)` — the derived `Debug` representation
(the variant name). -/
def IntentCategory.debugStr : IntentCategory → Str
  | .Pricing => "Pricing".toList
  | .Security => "Security".toList
  | .Timeline => "Timeline".toList
  | .Competition => "Competition".toList
  | .Technical => "Technical".toList
  | .BuyingSignal => "BuyingSignal".toList
  | .Objection => "Objection".toList
  | .Stalling => "Stalling".toList
  | .Procurement => "Procurement".toList
  | .SmallTalk => "SmallTalk".toList
  | .Other => "Other".toList

/-- `DetectedIntent` (`f32` confidence as exact `ℚ`; the keyword-set
ratios compared in `analyze` are far apart relative to `f32` precision, so
exact comparison agrees with the `f32` one). -/
structure DetectedIntent where
  category : IntentCategory
  confidence : ℚ
  needs_response : Bool
  triggers : List Str
deriving DecidableEq, Repr

/-- The `patterns` table of `IntentAnalyzer::new`. -/
def intentPatterns : List (IntentCategory × List Str) :=
  [ (.Pricing,
      [ "how much".toList, "cost".toList, "price".toList, "pricing".toList,
        "budget".toList, "expensive".toList, "afford".toList,
        "discount".toList, "payment".toList, "subscription".toList,
        "per user".toList, "per seat".toList, "annual".toList,
        "monthly".toList, "fee".toList, "charge".toList ]),
    (.Security,
      [ "security".toList, "secure".toList, "soc2".toList, "soc 2".toList,
        "gdpr".toList, "hipaa".toList, "compliance".toList,
        "compliant".toList, "data protection".toList, "encryption".toList,
        "privacy".toList, "audit".toList, "penetration test".toList,
        "vulnerability".toList, "certification".toList ]),
    (.Timeline,
      [ "how long".toList, "timeline".toList, "when can".toList,
        "how soon".toList, "implementation".toList, "onboarding".toList,
        "setup time".toList, "go live".toList, "deploy".toList,
        "migrate".toList, "transition".toList, "deadline".toList,
        "by when".toList, "urgent".toList ]),
    (.Competition,
      [ "compared to".toList, "vs".toList, "versus".toList,
        "competitor".toList, "alternative".toList, "different from".toList,
        "better than".toList, "why not use".toList, "already using".toList,
        "switch from".toList, "salesforce".toList, "hubspot".toList,
        "zendesk".toList ]),
    (.Technical,
      [ "integrate".toList, "integration".toList, "api".toList,
        "sdk".toList, "webhook".toList, "technical".toList,
        "architecture".toList, "scalability".toList, "performance".toList,
        "uptime".toList, "sla".toList, "latency".toList,
        "database".toList, "infrastructure".toList, "stack".toList ]),
    (.BuyingSignal,
      [ "next steps".toList, "how do we start".toList,
        "get started".toList, "sign up".toList, "contract".toList,
        "agreement".toList, "pilot".toList, "trial".toList,
        "proof of concept".toList, "let\x27s do it".toList,
        "sounds good".toList, "i\x27m interested".toList,
        "move forward".toList, "ready to".toList, "when can we".toList ]),
    (.Objection,
      [ "too expensive".toList, "not sure".toList, "concern".toList,
        "worried".toList, "hesitant".toList, "don\x27t think".toList,
        "not convinced".toList, "problem with".toList,
        "issue with".toList, "can\x27t".toList, "won\x27t work".toList,
        "doesn\x27t fit".toList, "not ready".toList ]),
    (.Stalling,
      [ "think about it".toList, "get back to you".toList,
        "send me info".toList, "email me".toList,
        "send a proposal".toList, "need to discuss".toList,
        "talk to my team".toList, "check internally".toList,
        "not the right time".toList, "maybe later".toList,
        "circle back".toList, "follow up".toList ]),
    (.Procurement,
      [ "who else".toList, "decision maker".toList, "sign off".toList,
        "approval".toList, "procurement".toList, "purchasing".toList,
        "legal review".toList, "it review".toList,
        "security review".toList, "vendor".toList, "rfp".toList,
        "rfi".toList, "evaluation".toList, "committee".toList ]) ]

/-- The `best_match` accumulation loop of `IntentAnalyzer::analyze`,
walked in pattern order; a later category replaces the best only on a
strictly greater score. -/
def analyzeAux (textLower : Str) :
    List (IntentCategory × List Str) →
    Option (IntentCategory × ℚ × List Str) →
    Option (IntentCategory × ℚ × List Str)
  | [], best => best
  | (category, keywords) :: rest, best =>
    let matched := keywords.filter (fun k => containsSub textLower k)
    let best :=
      if matched.isEmpty then best
      else
        let score : ℚ := (matched.length : ℚ) / (keywords.length : ℚ)
        match best with
        | none => some (category, score, matched)
        | some (bc, bs, bm) =>
          if score > bs then some (category, score, matched)
          else some (bc, bs, bm)
    analyzeAux textLower rest best

/-- `IntentAnalyzer::analyze`. -/
def analyze (text : Str) : DetectedIntent :=
  let textLower := lowerStr text
  match analyzeAux textLower intentPatterns none with
  | some (category, confidence, triggers) =>
    { needs_response := category ≠ .SmallTalk
      category
      confidence := min confidence (95/100 : ℚ)
      triggers }
  | none =>
    { category := .Other, confidence := 0, needs_response := true,
      triggers := [] }

/-! ## `deep/streaming.rs` -/

/-- `StreamChunk`. -/
inductive StreamChunk
  | Content (text : Str)
  | Question (q : Str)
  | Pushback (p : Str)
  | KeyPoint (kp : Str)
  | Done
  | Error (e : Str)
deriving DecidableEq, Repr

/-- Is a chunk one of the two terminal chunks? -/
def StreamChunk.isTerminal : StreamChunk → Bool
  | .Done => true
  | .Error _ => true
  | _ => false

/-! ## `brain/pipeline.rs` -/

/-- `CopilotState`. -/
structure CopilotState where
  is_running : Bool
  transcript : Str
  flash : Option FlashAnalysis
  deep_content : Str
  deep_streaming : Bool
  question_to_ask : Option Str
  error : Option Str
deriving DecidableEq, Repr

/-- `CopilotState::default()`. -/
def CopilotState.default : CopilotState :=
  { is_running := false, transcript := [], flash := none,
    deep_content := [], deep_streaming := false, question_to_ask := none,
    error := none }

/-- `PipelineEvent`. -/
inductive PipelineEvent
  | Transcript (text : Str)
  | FlashReady (analysis : FlashAnalysis)
  | DeepChunk (text : Str)
  | DeepComplete
  | QuestionReady (q : Str)
  | Error (e : Str)
  | Started
  | Stopped
deriving DecidableEq, Repr

/-- The chunk-consuming loop of `run_deep_analysis`, producing the final
state and the events sent on the bus, in order.  The loop breaks at the
first `Done` or `Error` chunk; `Pushback`/`KeyPoint` fall into the
catch-all arm and do nothing. -/
def deepLoop : CopilotState → List StreamChunk →
    CopilotState × List PipelineEvent
  | st, [] => (st, [])
  | st, chunk :: rest =>
    match chunk with
    | .Content text =>
      let next := deepLoop { st with deep_content := st.deep_content ++ text } rest
      (next.1, .DeepChunk text :: next.2)
    | .Question q =>
      let next := deepLoop { st with question_to_ask := some q } rest
      (next.1, .QuestionReady q :: next.2)
    | .Pushback _ => deepLoop st rest
    | .KeyPoint _ => deepLoop st rest
    | .Done =>
      ({ st with deep_streaming := false }, [.DeepComplete])
    | .Error e =>
      ({ st with deep_streaming := false, error := some e }, [.Error e])

/-- `run_deep_analysis`: it first sets `deep_streaming` and clears
`deep_content`, then either fails to open the stream (the `?` on
`analyze_streaming`, modelled by `start = .error e`, returning `Err`) or
consumes the given chunks.  Result: final state, bus events, and the
function's `Result<()>`. -/
def run_deep_analysis (st : CopilotState)
    (start : Except Str (List StreamChunk)) :
    CopilotState × List PipelineEvent × Except Str Unit :=
  let st := { st with deep_streaming := true, deep_content := [] }
  match start with
  | .error e => (st, [], .error e)
  | .ok chunks =>
    ((deepLoop st chunks).1, (deepLoop st chunks).2, .ok ())

/-- A Deep request as issued by the transcript-processing task: the
arguments `run_deep_analysis` is called with. -/
structure DeepRequest where
  transcript : Str
  context : Str
  bullets : List Str
  history : Str
deriving DecidableEq, Repr

/-- A Flash request: the arguments `run_flash_analysis` is called with. -/
structure FlashRequest where
  transcript : Str
  context : Str
deriving DecidableEq, Repr

/-- Result of handling one received transcript segment. -/
structure SegmentStep where
  state : CopilotState
  context : ConversationContext
  buffer : TranscriptBuffer
  events : List PipelineEvent
  flashRequests : List FlashRequest
  deepRequests : List DeepRequest
deriving DecidableEq, Repr

/-- The `Some(segment) => { ... }` arm of the transcript-processing task in
`CopilotPipeline::start`, as a pure step function.  The Flash backend's
reply is the `flashResult` parameter and the Deep stream opening/chunks the
`deepStart` parameter; `now` stands for `Utc::now()`.  On a final
non-empty segment the code adds the intent-tagged turn, calls Flash, and
only inside `if let Ok(flash)` stores/emits the analysis and runs Deep;
a Flash `Err` is silently discarded (no `else` branch exists). -/
def processSegment (st : CopilotState) (ctx : ConversationContext)
    (buf : TranscriptBuffer) (segment : TranscriptSegment)
    (flashResult : Except Str FlashAnalysis)
    (deepStart : Except Str (List StreamChunk)) (now : Nat) : SegmentStep :=
  let buf := buf.add segment
  let st := { st with transcript := buf.get_current_text }
  let evs := [PipelineEvent.Transcript segment.text]
  if segment.is_final && !segment.text.isEmpty then
    let intent := analyze segment.text
    let ctx := ctx.add_their_turn segment.text
      (some intent.category.debugStr) now
    let flashReq : List FlashRequest :=
      [{ transcript := segment.text, context := ctx.get_full_context }]
    match flashResult with
    | .ok flash =>
      let st := { st with flash := some flash }
      let evs := evs ++ [PipelineEvent.FlashReady flash]
      let bullets := flash.bullets.map (·.point)
      let deepReq : List DeepRequest :=
        [{ transcript := segment.text, context := ctx.get_full_context,
           bullets, history := ctx.get_history_string }]
      let deepRun := run_deep_analysis st deepStart
      let evs := evs ++ deepRun.2.1
      let evs := match deepRun.2.2 with
        | .error e => evs ++ [PipelineEvent.Error e]
        | .ok _ => evs
      { state := deepRun.1, context := ctx, buffer := buf, events := evs,
        flashRequests := flashReq, deepRequests := deepReq }
    | .error _ =>
      { state := st, context := ctx, buffer := buf, events := evs,
        flashRequests := flashReq, deepRequests := [] }
  else
    { state := st, context := ctx, buffer := buf, events := evs,
      flashRequests := [], deepRequests := [] }

/-! ## `capture/audio.rs` — PCM16 encoding

`f32` samples are modelled as exact rationals.  `clamp` and the comparison
structure carry over exactly; the one place where `f32` rounding could
matter (the multiply by `32767.0`) only moves a sample by a relative
`2⁻²⁴`, far below the truncation error the claims are about. -/

/-- Rust `f32::clamp(-1.0, 1.0)` (`if self < min { min } else if self > max
{ max } else { self }`). -/
def clampUnit (s : ℚ) : ℚ := if s < -1 then -1 else if s > 1 then 1 else s

/-- Rust float-to-`i16` `as` cast: truncation toward zero (saturating
handled by `i16Sat`).  `Int.tdiv` is exactly round-toward-zero. -/
def truncToZero (q : ℚ) : Int := Int.tdiv q.num (q.den : Int)

/-- The saturation of an `as i16` cast. -/
def i16Sat (n : Int) : Int :=
  if n < -32768 then -32768 else if n > 32767 then 32767 else n

/-- One sample of `f32_to_i16`. -/
def f32_to_i16_sample (s : ℚ) : Int := i16Sat (truncToZero (clampUnit s * 32767))

/-- `f32_to_i16`. -/
def f32_to_i16 (samples : List ℚ) : List Int := samples.map f32_to_i16_sample

/-- `i16::to_le_bytes`: two's-complement little-endian byte pair. -/
def i16ToLeBytes (n : Int) : List Nat :=
  let u : Nat := (n % 65536).toNat
  [u % 256, u / 256]

/-- `f32_to_pcm_bytes`. -/
def f32_to_pcm_bytes (samples : List ℚ) : List Nat :=
  (f32_to_i16 samples).flatMap i16ToLeBytes

/-- `decode_le_i16`: read a little-endian `i16` from two bytes. -/
def decode_le_i16 (b0 b1 : Nat) : Int :=
  let m : Nat := b0 + 256 * b1
  if m ≥ 32768 then (m : Int) - 65536 else (m : Int)

/-- Decode the first sample of a PCM byte stream (helper for the
round-trip property). -/
def decodeFirstSample : List Nat → Int
  | b0 :: b1 :: _ => decode_le_i16 b0 b1
  | _ => 0

/-! ## Observers and spec-side reference definitions

The definitions below are not translations of source functions: they are
observation helpers on event lists, plus reference formulations written
from the spec's words, used to state the claims against the embedded
code. -/

/-- Number of `Error` events in a bus trace. -/
def countErrors (evs : List PipelineEvent) : Nat :=
  (evs.filter (fun ev => match ev with | .Error _ => true | _ => false)).length

/-- Number of `FlashReady` events in a bus trace. -/
def countFlashReady (evs : List PipelineEvent) : Nat :=
  (evs.filter (fun ev => match ev with | .FlashReady _ => true | _ => false)).length

/-- Number of `DeepComplete` events in a bus trace. -/
def countDeepComplete (evs : List PipelineEvent) : Nat :=
  (evs.filter (fun ev => match ev with | .DeepComplete => true | _ => false)).length

/-- The `FlashAnalysis` payloads of the `FlashReady` events in a trace. -/
def flashPayloads (evs : List PipelineEvent) : List FlashAnalysis :=
  evs.filterMap (fun ev => match ev with | .FlashReady fa => some fa | _ => none)

/-- The events a run of non-terminal chunks contributes to the bus:
`Content` becomes `DeepChunk`, `Question` becomes `QuestionReady`,
`Pushback`/`KeyPoint` nothing (terminal chunks are out of scope here). -/
def preEvents : List StreamChunk → List PipelineEvent
  | [] => []
  | .Content t :: rest => .DeepChunk t :: preEvents rest
  | .Question q :: rest => .QuestionReady q :: preEvents rest
  | .Pushback _ :: rest => preEvents rest
  | .KeyPoint _ :: rest => preEvents rest
  | .Done :: _ => []
  | .Error _ :: _ => []

/-- No chunk of the list is terminal. -/
def noTerminal (chunks : List StreamChunk) : Bool :=
  chunks.all (fun c => !c.isTerminal)

/-- Spec-side complexity score, written from the claim: +2 per complex
keyword occurring in the lowercased text, −1 per simple keyword, a length
bonus, and a multi-question bonus; to be compared with `complexityScore`. -/
def specComplexityScore (text : Str) : Int :=
  2 * (((complexKeywords.filter fun k => containsSub (lowerStr text) k).length : Int))
    - (((simpleKeywords.filter fun k => containsSub (lowerStr text) k).length : Int))
    + (if wordCount text > 30 then 2 else if wordCount text > 15 then 1 else 0)
    + (if countChar '?' text > 1 then 1 else 0)

/-- Spec-side Smart routing, written from the amended claim: Local when
the text's complexity is below the threshold and local is live, or when no
cloud key is configured at all; otherwise the first available cloud
provider in the order Google, OpenAI, Anthropic. -/
def specSmartProvider (r : HybridRouter) (text : Str) : AIProvider :=
  if (Complexity.fromText text).lt r.config.cloud_threshold && r.local_available then
    .Local r.config.local_model
  else if r.config.google_key.isSome then .Google r.config.google_model
  else if r.config.openai_key.isSome then .OpenAI r.config.openai_model
  else if r.config.anthropic_key.isSome then .Anthropic r.config.anthropic_model
  else .Local r.config.local_model

/-! ## Shared lemmas -/

lemma popWhileOver_eq_drop (m : Nat) (l : List TranscriptSegment) :
    popWhileOver m l = l.drop (l.length - m) := by
  induction l with
  | nil => simp [popWhileOver]
  | cons a t ih =>
    by_cases h : (a :: t).length > m
    · rw [popWhileOver, if_pos h, ih]
      have hm : (a :: t).length - m = (t.length - m) + 1 := by
        simp only [List.length_cons] at h ⊢; omega
      rw [hm, List.drop_succ_cons]
    · rw [popWhileOver, if_neg h]
      have hz : (a :: t).length - m = 0 := by
        simp only [List.length_cons] at h ⊢; omega
      rw [hz, List.drop_zero]

lemma popWhileOver_length_le (m : Nat) (l : List TranscriptSegment) :
    (popWhileOver m l).length ≤ m := by
  induction l with
  | nil => simp [popWhileOver]
  | cons a t ih =>
    by_cases h : (a :: t).length > m
    · rw [popWhileOver, if_pos h]; exact ih
    · rw [popWhileOver, if_neg h]
      simp only [List.length_cons] at h ⊢; omega

lemma add_max_segments (b : TranscriptBuffer) (seg : TranscriptSegment) :
    (b.add seg).max_segments = b.max_segments := by
  unfold TranscriptBuffer.add
  split <;> rfl

lemma add_segments_length_le (b : TranscriptBuffer) (seg : TranscriptSegment)
    (hb : b.segments.length ≤ b.max_segments) :
    (b.add seg).segments.length ≤ b.max_segments := by
  unfold TranscriptBuffer.add
  split
  · exact popWhileOver_length_le _ _
  · exact hb

lemma foldl_add_invariant (segs : List TranscriptSegment) (b : TranscriptBuffer)
    (hb : b.segments.length ≤ b.max_segments) :
    (segs.foldl TranscriptBuffer.add b).segments.length ≤ b.max_segments ∧
    (segs.foldl TranscriptBuffer.add b).max_segments = b.max_segments := by
  induction segs generalizing b with
  | nil => exact ⟨hb, rfl⟩
  | cons s t ih =>
    have hmax := add_max_segments b s
    have h1 : (b.add s).segments.length ≤ (b.add s).max_segments := by
      rw [hmax]; exact add_segments_length_le b s hb
    have h2 := ih (b.add s) h1
    simpa [hmax] using h2

/-! ## Claims -/

/-- C7: adding a non-final segment replaces the single interim slot and
leaves the finals untouched; adding a final segment clears the interim
slot and appends to the finals, evicting oldest-first down to the bound;
and starting from `TranscriptBuffer::new(n)`, after any sequence of adds
the finals hold at most `n` segments. -/
theorem C7_transcript_buffer (b : TranscriptBuffer) (seg : TranscriptSegment)
    (n : Nat) (segs : List TranscriptSegment) :
    (seg.is_final = false →
      (b.add seg).interim = some seg ∧ (b.add seg).segments = b.segments) ∧
    (seg.is_final = true →
      (b.add seg).interim = none ∧
      (b.add seg).segments =
        (b.segments ++ [seg]).drop ((b.segments ++ [seg]).length - b.max_segments)) ∧
    (segs.foldl TranscriptBuffer.add (TranscriptBuffer.new n)).segments.length ≤ n := by
  refine ⟨fun h => ?_, fun h => ?_, ?_⟩
  · simp [TranscriptBuffer.add, h]
  · simp [TranscriptBuffer.add, h, popWhileOver_eq_drop]
  · have hinv := foldl_add_invariant segs (TranscriptBuffer.new n)
      (by simp [TranscriptBuffer.new])
    simpa [TranscriptBuffer.new] using hinv.1

/-- Concrete witness for C7: on a fresh 1-bounded buffer an interim add
fills the interim slot, a final add clears it. -/
theorem C7_transcript_buffer_witness :
    ((TranscriptBuffer.new 1).add
      { text := "hello".toList, confidence := 9/10, is_final := false,
        speaker := none, timestamp := 0 }).interim =
      some { text := "hello".toList, confidence := 9/10, is_final := false,
             speaker := none, timestamp := 0 } ∧
    ((TranscriptBuffer.new 1).add
      { text := "world".toList, confidence := 1, is_final := true,
        speaker := none, timestamp := 1 }).interim = none := by
  constructor
  · exact ((C7_transcript_buffer (TranscriptBuffer.new 1)
      { text := "hello".toList, confidence := 9/10, is_final := false,
        speaker := none, timestamp := 0 } 0 []).1 rfl).1
  · exact ((C7_transcript_buffer (TranscriptBuffer.new 1)
      { text := "world".toList, confidence := 1, is_final := true,
        speaker := none, timestamp := 1 } 0 []).2.1 rfl).1

/-- Buffer whose one final segment is `"aé"` — two characters, three
UTF-8 bytes. -/
def bufAccent : TranscriptBuffer :=
  { segments := [{ text := "aé".toList, confidence := 1, is_final := true,
                   speaker := none, timestamp := 0 }],
    interim := none, max_segments := 100 }

/-- C9: `get_tail` is not total.  With current text `"aé"` (3 bytes) and
`char_limit = 1`, the source slices `&text[2..]` — byte index 2 is inside
the two-byte character `é`, so the slice panics (modelled as `none`).
The function's own doc says it returns the last N characters. -/
theorem C9_get_tail_panics :
    bufAccent.get_current_text = "aé".toList ∧
    bufAccent.get_tail 1 = none := by
  constructor
  · rfl
  · rfl

/-- C10: `clear()` empties turns, key facts and objections, leaves the
mode prompt unchanged, and afterwards `get_full_context()` is exactly the
mode prompt. -/
theorem C10_clear_keeps_mode_prompt (c : ConversationContext) :
    (c.clear).turns = [] ∧ (c.clear).key_facts = [] ∧
    (c.clear).objections_raised = [] ∧
    (c.clear).mode_context = c.mode_context ∧
    (c.clear).get_full_context = c.mode_context := by
  refine ⟨rfl, rfl, rfl, rfl, ?_⟩
  simp [ConversationContext.clear, ConversationContext.get_full_context]

lemma foldl_if_add_two (l : List Str) (p : Str → Bool) (a : Int) :
    l.foldl (fun acc k => if p k then acc + 2 else acc) a
      = a + 2 * ((l.filter p).length : Int) := by
  induction l generalizing a with
  | nil => simp
  | cons x t ih =>
    by_cases h : p x
    · simp only [List.foldl_cons, List.filter_cons, h, if_pos, ih,
        List.length_cons]
      push_cast
      ring
    · simp [h, ih]

lemma foldl_if_sub_one (l : List Str) (p : Str → Bool) (a : Int) :
    l.foldl (fun acc k => if p k then acc - 1 else acc) a
      = a - ((l.filter p).length : Int) := by
  induction l generalizing a with
  | nil => simp
  | cons x t ih =>
    by_cases h : p x
    · simp only [List.foldl_cons, List.filter_cons, h, if_pos, ih,
        List.length_cons]
      push_cast
      ring
    · simp [h, ih]

/-- C6: the complexity score is the claim's sum — +2 per complex keyword
found in the lowercased text, −1 per simple keyword, +2/+1 word-count
bonus, +1 multi-question bonus — and the buckets are ≤0 Simple, 1–3
Moderate, 4–6 Complex, ≥7 Critical. -/
theorem C6_complexity_score (text : Str) :
    complexityScore text = specComplexityScore text ∧
    (Complexity.fromText text = .Simple ↔ complexityScore text ≤ 0) ∧
    (Complexity.fromText text = .Moderate ↔
      1 ≤ complexityScore text ∧ complexityScore text ≤ 3) ∧
    (Complexity.fromText text = .Complex ↔
      4 ≤ complexityScore text ∧ complexityScore text ≤ 6) ∧
    (Complexity.fromText text = .Critical ↔ 7 ≤ complexityScore text) := by
  have hscore : complexityScore text = specComplexityScore text := by
    simp only [complexityScore, specComplexityScore]
    rw [foldl_if_add_two, foldl_if_sub_one]
    split_ifs <;> ring
  refine ⟨hscore, ?_, ?_, ?_, ?_⟩ <;>
    (simp only [Complexity.fromText]; split_ifs <;> simp <;> omega)

/-- A Smart-strategy router with the default configuration (no cloud keys)
and local backend not live. -/
def routerNoKeys : HybridRouter :=
  { config := HybridRouterConfig.default, local_available := false }

/-- C5 counterexample: under Smart with no cloud keys configured and local
not live, `select_provider` returns the Local provider even though the
"Local exactly when complexity below threshold and local live" condition
is false, and it returns no cloud provider at all. -/
theorem C5_counterexample :
    routerNoKeys.config.strategy = .Smart ∧
    routerNoKeys.local_available = false ∧
    routerNoKeys.select_provider ("hi".toList) ("sales".toList) =
      .Local ("llama3.1:8b".toList) := by
  refine ⟨rfl, rfl, ?_⟩
  rfl

/-- C5 (amended): under Smart, `select_provider` returns Local exactly
when complexity is below the threshold and local is live, or when no
cloud key is configured; otherwise the best available cloud provider in
the order Google, OpenAI, Anthropic — as captured by `specSmartProvider`. -/
theorem C5_smart_routing (r : HybridRouter) (text mode : Str)
    (h : r.config.strategy = .Smart) :
    r.select_provider text mode = specSmartProvider r text := by
  simp only [HybridRouter.select_provider, specSmartProvider,
    HybridRouter.best_cloud_provider, h]
  cases hl : r.local_available <;>
    by_cases hc : (Complexity.fromText text).lt r.config.cloud_threshold <;>
      simp [hc, hl]

/-- Witness for C5: the amended routing equation at the concrete
no-cloud-keys router. -/
theorem C5_smart_routing_witness :
    routerNoKeys.select_provider ("hi".toList) ("sales".toList) =
      specSmartProvider routerNoKeys ("hi".toList) :=
  C5_smart_routing routerNoKeys ("hi".toList) ("sales".toList) rfl

lemma deepLoop_done (st : CopilotState) (pre post : List StreamChunk)
    (h : ∀ c ∈ pre, c.isTerminal = false) :
    (deepLoop st (pre ++ StreamChunk.Done :: post)).2
      = preEvents pre ++ [.DeepComplete] ∧
    (deepLoop st (pre ++ StreamChunk.Done :: post)).1.deep_streaming = false := by
  induction pre generalizing st with
  | nil => simp [deepLoop, preEvents]
  | cons c rest ih =>
    have hc : c.isTerminal = false := h c (List.mem_cons_self c rest)
    have hrest : ∀ x ∈ rest, x.isTerminal = false :=
      fun x hx => h x (List.mem_cons_of_mem c hx)
    cases c with
    | Content t =>
      have := ih { st with deep_content := st.deep_content ++ t } hrest
      simp only [List.cons_append, deepLoop, preEvents, this.1, this.2,
        List.cons.injEq]
      exact ⟨⟨trivial, this.1⟩, this.2⟩
    | Question q =>
      have := ih { st with question_to_ask := some q } hrest
      simp only [List.cons_append, deepLoop, preEvents, this.1, this.2,
        List.cons.injEq]
      exact ⟨⟨trivial, this.1⟩, this.2⟩
    | Pushback p =>
      have := ih st hrest
      simpa only [List.cons_append, deepLoop, preEvents] using this
    | KeyPoint kp =>
      have := ih st hrest
      simpa only [List.cons_append, deepLoop, preEvents] using this
    | Done => simp [StreamChunk.isTerminal] at hc
    | Error e => simp [StreamChunk.isTerminal] at hc

lemma deepLoop_error (st : CopilotState) (pre post : List StreamChunk) (e : Str)
    (h : ∀ c ∈ pre, c.isTerminal = false) :
    (deepLoop st (pre ++ StreamChunk.Error e :: post)).2
      = preEvents pre ++ [.Error e] ∧
    (deepLoop st (pre ++ StreamChunk.Error e :: post)).1.deep_streaming = false := by
  induction pre generalizing st with
  | nil => simp [deepLoop, preEvents]
  | cons c rest ih =>
    have hc : c.isTerminal = false := h c (List.mem_cons_self c rest)
    have hrest : ∀ x ∈ rest, x.isTerminal = false :=
      fun x hx => h x (List.mem_cons_of_mem c hx)
    cases c with
    | Content t =>
      have := ih { st with deep_content := st.deep_content ++ t } hrest
      simp only [List.cons_append, deepLoop, preEvents, this.1, this.2,
        List.cons.injEq]
      exact ⟨⟨trivial, this.1⟩, this.2⟩
    | Question q =>
      have := ih { st with question_to_ask := some q } hrest
      simp only [List.cons_append, deepLoop, preEvents, this.1, this.2,
        List.cons.injEq]
      exact ⟨⟨trivial, this.1⟩, this.2⟩
    | Pushback p =>
      have := ih st hrest
      simpa only [List.cons_append, deepLoop, preEvents] using this
    | KeyPoint kp =>
      have := ih st hrest
      simpa only [List.cons_append, deepLoop, preEvents] using this
    | Done => simp [StreamChunk.isTerminal] at hc
    | Error e2 => simp [StreamChunk.isTerminal] at hc

lemma countDeepComplete_preEvents (pre : List StreamChunk) :
    countDeepComplete (preEvents pre) = 0 := by
  induction pre with
  | nil => simp [preEvents, countDeepComplete]
  | cons c rest ih => cases c <;> simp [preEvents, countDeepComplete] <;>
      simpa [countDeepComplete] using ih

/-- C4: for a Deep stream consumed to a terminal chunk: terminal `Done`
yields events `⋯ ++ [DeepComplete]` with `deep_streaming` ending `false`;
terminal `Error e` yields `⋯ ++ [Error e]`, no `DeepComplete` anywhere in
the trace, and `deep_streaming` ending `false`; in both cases the trace
equation shows nothing is emitted for chunks after the terminal one. -/
theorem C4_deep_terminal (st : CopilotState) (pre post : List StreamChunk)
    (e : Str) (h : noTerminal pre = true) :
    (run_deep_analysis st (.ok (pre ++ StreamChunk.Done :: post))).2.1
      = preEvents pre ++ [.DeepComplete] ∧
    (run_deep_analysis st (.ok (pre ++ StreamChunk.Done :: post))).1.deep_streaming
      = false ∧
    (run_deep_analysis st (.ok (pre ++ StreamChunk.Error e :: post))).2.1
      = preEvents pre ++ [.Error e] ∧
    countDeepComplete
      ((run_deep_analysis st (.ok (pre ++ StreamChunk.Error e :: post))).2.1) = 0 ∧
    (run_deep_analysis st (.ok (pre ++ StreamChunk.Error e :: post))).1.deep_streaming
      = false := by
  have h' : ∀ c ∈ pre, c.isTerminal = false := by
    intro c hc
    have := List.all_eq_true.mp h c hc
    simpa using this
  have hd := deepLoop_done
    { st with deep_streaming := true, deep_content := [] } pre post h'
  have he := deepLoop_error
    { st with deep_streaming := true, deep_content := [] } pre post e h'
  refine ⟨?_, ?_, ?_, ?_, ?_⟩
  · simpa [run_deep_analysis] using hd.1
  · simpa [run_deep_analysis] using hd.2
  · simpa [run_deep_analysis] using he.1
  · have : (run_deep_analysis st
        (.ok (pre ++ StreamChunk.Error e :: post))).2.1
        = preEvents pre ++ [.Error e] := by
      simpa [run_deep_analysis] using he.1
    rw [this]
    simp [countDeepComplete, List.filter_append, countDeepComplete_preEvents]
    have := countDeepComplete_preEvents pre
    simpa [countDeepComplete] using this
  · simpa [run_deep_analysis] using he.2

/-- Witness for C4: a one-`Content` stream followed by `Done`, with a
trailing chunk after the terminal that is not consumed. -/
theorem C4_deep_terminal_witness :
    (run_deep_analysis CopilotState.default
      (.ok ([StreamChunk.Content ("a".toList)] ++
        StreamChunk.Done :: [StreamChunk.Content ("b".toList)]))).2.1
      = preEvents [StreamChunk.Content ("a".toList)] ++ [.DeepComplete] :=
  (C4_deep_terminal CopilotState.default [StreamChunk.Content ("a".toList)]
    [StreamChunk.Content ("b".toList)] ("x".toList) (by decide)).1

/-- A concrete final, non-empty transcript segment. -/
def segHello : TranscriptSegment :=
  { text := "hello".toList, confidence := 1, is_final := true,
    speaker := none, timestamp := 0 }

/-- A backend `FlashAnalysis` with six bullets, not sorted by priority. -/
def flashSix : FlashAnalysis :=
  { summary := "s".toList,
    bullets := [{ point := "b3".toList, priority := 3 },
                { point := "b1".toList, priority := 1 },
                { point := "b2".toList, priority := 2 },
                { point := "b6".toList, priority := 6 },
                { point := "b5".toList, priority := 5 },
                { point := "b4".toList, priority := 4 }],
    statement_type := .Question, urgency := .AnswerNow }

/-- C1 counterexample: a final non-empty segment whose Flash request
errors produces a bus trace with zero `Error` events — the claimed `Error`
emission does not happen (there is no `else` arm on `if let Ok(flash)`). -/
theorem C1_counterexample :
    segHello.is_final = true ∧
    segHello.text.isEmpty = false ∧
    (processSegment CopilotState.default (ConversationContext.new 20)
      (TranscriptBuffer.new 100) segHello (.error ("boom".toList))
      (.ok []) 0).events = [.Transcript ("hello".toList)] ∧
    countErrors (processSegment CopilotState.default (ConversationContext.new 20)
      (TranscriptBuffer.new 100) segHello (.error ("boom".toList))
      (.ok []) 0).events = 0 := by
  refine ⟨rfl, rfl, rfl, rfl⟩

/-- C1 (amended): on a Flash error for a final non-empty segment the
pipeline emits only the `Transcript` event — in particular no `Error` and
no `FlashReady` — issues no Deep request, and `is_running` is untouched
(the session keeps running). -/
theorem C1_flash_error_behavior (st : CopilotState) (ctx : ConversationContext)
    (buf : TranscriptBuffer) (seg : TranscriptSegment) (e : Str)
    (deepStart : Except Str (List StreamChunk)) (now : Nat)
    (hf : seg.is_final = true) (hne : seg.text.isEmpty = false) :
    (processSegment st ctx buf seg (.error e) deepStart now).events
      = [.Transcript seg.text] ∧
    countErrors (processSegment st ctx buf seg (.error e) deepStart now).events
      = 0 ∧
    countFlashReady
      (processSegment st ctx buf seg (.error e) deepStart now).events = 0 ∧
    (processSegment st ctx buf seg (.error e) deepStart now).deepRequests = [] ∧
    (processSegment st ctx buf seg (.error e) deepStart now).state.is_running
      = st.is_running := by
  have hevs : (processSegment st ctx buf seg (.error e) deepStart now).events
      = [.Transcript seg.text] := by
    simp [processSegment, hf, hne]
  refine ⟨hevs, ?_, ?_, ?_, ?_⟩
  · rw [hevs]; rfl
  · rw [hevs]; rfl
  · simp [processSegment, hf, hne]
  · simp [processSegment, hf, hne]

/-- Witness for C1's amended theorem at the concrete segment. -/
theorem C1_flash_error_behavior_witness :
    (processSegment CopilotState.default (ConversationContext.new 20)
      (TranscriptBuffer.new 100) segHello (.error ("boom".toList))
      (.ok [StreamChunk.Done]) 7).deepRequests = [] :=
  (C1_flash_error_behavior CopilotState.default (ConversationContext.new 20)
    (TranscriptBuffer.new 100) segHello ("boom".toList)
    (.ok [StreamChunk.Done]) 7 rfl rfl).2.2.2.1

lemma flashPayloads_deepLoop (st : CopilotState) (chunks : List StreamChunk) :
    flashPayloads (deepLoop st chunks).2 = [] := by
  induction chunks generalizing st with
  | nil => simp [deepLoop, flashPayloads]
  | cons c rest ih =>
    cases c <;> simp [deepLoop, flashPayloads] <;>
      simpa [flashPayloads] using ih _

lemma isSortedByPriority_of_pairwise (l : List Bullet)
    (h : List.Pairwise (fun a b : Bullet => a.priority ≤ b.priority) l) :
    isSortedByPriority l = true := by
  induction l with
  | nil => rfl
  | cons a t ih =>
    cases t with
    | nil => rfl
    | cons b t2 =>
      rcases List.pairwise_cons.mp h with ⟨hab, ht⟩
      have h1 : a.priority ≤ b.priority := hab b (List.mem_cons_self b t2)
      have h2 := ih ht
      simp [isSortedByPriority, h1, h2]

/-- C2 counterexample: the pipeline emits `FlashReady` carrying the
backend's six-bullet, unsorted `FlashAnalysis` as-is — neither the 5-bullet
cap nor the priority sort claimed for the orchestrator happens. -/
theorem C2_counterexample :
    PipelineEvent.FlashReady flashSix ∈
      (processSegment CopilotState.default (ConversationContext.new 20)
        (TranscriptBuffer.new 100) segHello (.ok flashSix)
        (.ok [StreamChunk.Done]) 0).events ∧
    flashSix.bullets.length = 6 ∧
    isSortedByPriority flashSix.bullets = false := by
  refine ⟨?_, rfl, rfl⟩
  simp [processSegment, segHello, run_deep_analysis, deepLoop]

/-- C2 (amended): every `FlashReady` the pipeline emits for a successful
Flash carries the backend's `FlashAnalysis` unchanged (it is the only
`FlashReady` payload of the step); the separate `extract_bullets` helper
returns the bullets sorted by priority ascending without dropping any. -/
theorem C2_flashready_payload (st : CopilotState) (ctx : ConversationContext)
    (buf : TranscriptBuffer) (seg : TranscriptSegment) (fa : FlashAnalysis)
    (deepStart : Except Str (List StreamChunk)) (now : Nat)
    (hf : seg.is_final = true) (hne : seg.text.isEmpty = false) :
    flashPayloads
      (processSegment st ctx buf seg (.ok fa) deepStart now).events = [fa] ∧
    (extract_bullets fa).length = fa.bullets.length ∧
    isSortedByPriority (extract_bullets fa) = true := by
  refine ⟨?_, ?_, ?_⟩
  · cases deepStart with
    | error e =>
      simp [processSegment, hf, hne, run_deep_analysis, flashPayloads]
    | ok chunks =>
      simp [processSegment, hf, hne, run_deep_analysis, flashPayloads,
        flashPayloads_deepLoop st chunks]
      have := flashPayloads_deepLoop
        { (({ st with
            transcript := (buf.add seg).get_current_text } : CopilotState)) with
          flash := some fa, deep_streaming := true, deep_content := [] } chunks
      simpa [flashPayloads] using this
  · simp [extract_bullets]
  · apply isSortedByPriority_of_pairwise
    have htrans : ∀ a b c : Bullet,
        (decide (a.priority ≤ b.priority)) = true →
        (decide (b.priority ≤ c.priority)) = true →
        (decide (a.priority ≤ c.priority)) = true := by
      intro a b c hab hbc
      simp only [decide_eq_true_eq] at *
      omega
    have htotal : ∀ a b : Bullet,
        ((decide (a.priority ≤ b.priority)) ||
          (decide (b.priority ≤ a.priority))) = true := by
      intro a b
      rcases Nat.le_total a.priority b.priority with hab | hab <;> simp [hab]
    have := @List.sorted_mergeSort Bullet
      (fun a b : Bullet => decide (a.priority ≤ b.priority))
      htrans htotal fa.bullets
    simpa [extract_bullets, List.Pairwise] using this

/-- Witness for C2's amended theorem at the concrete six-bullet analysis. -/
theorem C2_flashready_payload_witness :
    flashPayloads (processSegment CopilotState.default
      (ConversationContext.new 20) (TranscriptBuffer.new 100) segHello
      (.ok flashSix) (.ok [StreamChunk.Done]) 0).events = [flashSix] :=
  (C2_flashready_payload CopilotState.default (ConversationContext.new 20)
    (TranscriptBuffer.new 100) segHello flashSix (.ok [StreamChunk.Done]) 0
    rfl rfl).1

/-- C3: exactly once per final non-empty segment the step (1) appends the
segment to the context as a their-turn tagged with the intent category
from the intent analyzer, (2) issues one Flash request with the updated
full context, and (3) on Flash success issues one Deep request seeded with
the Flash bullet points and the current history string — while a non-final
or empty segment changes no context and issues no requests. -/
theorem C3_trigger_rule (st : CopilotState) (ctx : ConversationContext)
    (buf : TranscriptBuffer) (seg : TranscriptSegment)
    (flashResult : Except Str FlashAnalysis)
    (deepStart : Except Str (List StreamChunk)) (now : Nat) :
    (seg.is_final = true → seg.text.isEmpty = false →
      (processSegment st ctx buf seg flashResult deepStart now).context
        = ctx.add_their_turn seg.text
            (some (analyze seg.text).category.debugStr) now ∧
      (processSegment st ctx buf seg flashResult deepStart now).flashRequests
        = [{ transcript := seg.text,
             context := (ctx.add_their_turn seg.text
               (some (analyze seg.text).category.debugStr) now).get_full_context }] ∧
      (∀ fa, flashResult = .ok fa →
        (processSegment st ctx buf seg flashResult deepStart now).deepRequests
          = [{ transcript := seg.text,
               context := (ctx.add_their_turn seg.text
                 (some (analyze seg.text).category.debugStr) now).get_full_context,
               bullets := fa.bullets.map (·.point),
               history := (ctx.add_their_turn seg.text
                 (some (analyze seg.text).category.debugStr) now).get_history_string }]) ∧
      (∀ e, flashResult = .error e →
        (processSegment st ctx buf seg flashResult deepStart now).deepRequests
          = [])) ∧
    (seg.is_final = false ∨ seg.text.isEmpty = true →
      (processSegment st ctx buf seg flashResult deepStart now).context = ctx ∧
      (processSegment st ctx buf seg flashResult deepStart now).flashRequests
        = [] ∧
      (processSegment st ctx buf seg flashResult deepStart now).deepRequests
        = []) := by
  constructor
  · intro hf hne
    refine ⟨?_, ?_, ?_, ?_⟩
    · cases flashResult <;> simp [processSegment, hf, hne]
    · cases flashResult <;> simp [processSegment, hf, hne]
    · intro fa hfa
      subst hfa
      simp [processSegment, hf, hne]
    · intro e he
      subst he
      simp [processSegment, hf, hne]
  · intro hcase
    have hcond : (seg.is_final && !seg.text.isEmpty) = false := by
      rcases hcase with h | h <;> simp [h]
    refine ⟨?_, ?_, ?_⟩ <;> simp [processSegment, hcond]

/-- Witness for C3: the Deep request issued for the concrete segment and
six-bullet Flash result. -/
theorem C3_trigger_rule_witness :
    (processSegment CopilotState.default (ConversationContext.new 20)
      (TranscriptBuffer.new 100) segHello (.ok flashSix)
      (.ok [StreamChunk.Done]) 0).deepRequests
      = [{ transcript := segHello.text,
           context := ((ConversationContext.new 20).add_their_turn segHello.text
             (some (analyze segHello.text).category.debugStr) 0).get_full_context,
           bullets := flashSix.bullets.map (·.point),
           history := ((ConversationContext.new 20).add_their_turn segHello.text
             (some (analyze segHello.text).category.debugStr) 0).get_history_string }] :=
  ((C3_trigger_rule CopilotState.default (ConversationContext.new 20)
    (TranscriptBuffer.new 100) segHello (.ok flashSix)
    (.ok [StreamChunk.Done]) 0).1 rfl rfl).2.2.1 flashSix rfl

lemma truncToZero_eq (q : ℚ) :
    truncToZero q = if 0 ≤ q then ⌊q⌋ else ⌈q⌉ := by
  unfold truncToZero
  by_cases h : 0 ≤ q
  · rw [if_pos h]
    have hnum : 0 ≤ q.num := Rat.num_nonneg.mpr h
    rw [Int.tdiv_eq_ediv hnum (by positivity), Rat.floor_def]
  · rw [if_neg h]
    push_neg at h
    have hnum : q.num < 0 := Rat.num_neg.mpr h
    have h1 : q.num.tdiv q.den = -((-q.num).tdiv q.den) := by
      rw [Int.neg_tdiv, Int.neg_neg]
    rw [h1, Int.tdiv_eq_ediv (by omega) (by positivity)]
    have h2 : (⌈q⌉ : ℤ) = -⌊-q⌋ := by
      rw [Int.floor_neg, Int.neg_neg]
    rw [h2, Rat.floor_def]
    simp

lemma truncToZero_close (q : ℚ) : |(truncToZero q : ℚ) - q| < 1 := by
  rw [truncToZero_eq]
  by_cases h : 0 ≤ q
  · rw [if_pos h]
    have h1 := Int.floor_le q
    have h2 := Int.lt_floor_add_one q
    rw [abs_lt]
    constructor <;> linarith
  · rw [if_neg h]
    have h1 := Int.le_ceil q
    have h2 := Int.ceil_lt_add_one q
    rw [abs_lt]
    constructor <;> linarith

lemma decode_encode (t : Int) (h1 : -32768 ≤ t) (h2 : t ≤ 32767) :
    decodeFirstSample (i16ToLeBytes t) = t := by
  simp only [i16ToLeBytes, decodeFirstSample, decode_le_i16]
  omega

/-- C8 (amended): encoding a sample `s ∈ [−1, 1]` clamps it, multiplies by
32767, truncates to `i16` and emits little-endian bytes; decoding those
bytes and dividing by 32767 recovers `s` within `1/32767` (the claimed
`1/32768` bound is slightly too tight — see the counterexample). -/
theorem C8_pcm_roundtrip (s : ℚ) (h1 : -1 ≤ s) (h2 : s ≤ 1) :
    f32_to_pcm_bytes [s] = i16ToLeBytes (i16Sat (truncToZero (clampUnit s * 32767))) ∧
    |((decodeFirstSample (f32_to_pcm_bytes [s]) : ℚ) / 32767) - s| < 1 / 32767 := by
  have hclamp : clampUnit s = s := by
    unfold clampUnit
    rw [if_neg (by linarith), if_neg (by linarith)]
  have hclose : |(truncToZero (s * 32767) : ℚ) - s * 32767| < 1 :=
    truncToZero_close (s * 32767)
  have hqabs : |s * 32767| ≤ 32767 := by
    rw [abs_mul]
    have hs : |s| ≤ 1 := abs_le.mpr ⟨h1, h2⟩
    have : |(32767 : ℚ)| = 32767 := by norm_num
    rw [this]
    nlinarith
  have htabs : |(truncToZero (s * 32767) : ℚ)| < 32768 := by
    calc |(truncToZero (s * 32767) : ℚ)|
        = |((truncToZero (s * 32767) : ℚ) - s * 32767) + s * 32767| := by ring_nf
      _ ≤ |(truncToZero (s * 32767) : ℚ) - s * 32767| + |s * 32767| := abs_add _ _
      _ < 1 + 32767 := by linarith
      _ = 32768 := by norm_num
  have htrange : -32768 ≤ truncToZero (s * 32767) ∧
      truncToZero (s * 32767) ≤ 32767 := by
    rw [abs_lt] at htabs
    have hlo : (-32768 : ℤ) < truncToZero (s * 32767) := by exact_mod_cast htabs.1
    have hhi : truncToZero (s * 32767) < (32768 : ℤ) := by exact_mod_cast htabs.2
    omega
  have hsat : i16Sat (truncToZero (clampUnit s * 32767)) = truncToZero (s * 32767) := by
    rw [hclamp]
    unfold i16Sat
    rw [if_neg (by omega), if_neg (by omega)]
  have hsample : f32_to_i16_sample s = truncToZero (s * 32767) := by
    unfold f32_to_i16_sample
    rw [hclamp] at hsat ⊢
    exact hsat
  have hbytes : f32_to_pcm_bytes [s] = i16ToLeBytes (truncToZero (s * 32767)) := by
    simp [f32_to_pcm_bytes, f32_to_i16, hsample]
  refine ⟨?_, ?_⟩
  · rw [hbytes, hsat]
  · rw [hbytes, decode_encode _ htrange.1 htrange.2]
    have heq : (truncToZero (s * 32767) : ℚ) / 32767 - s
        = ((truncToZero (s * 32767) : ℚ) - s * 32767) / 32767 := by
      ring
    rw [heq, abs_div]
    have h32 : |(32767 : ℚ)| = 32767 := by norm_num
    rw [h32]
    have hpos : (0 : ℚ) < 32767 := by norm_num
    exact div_lt_div_of_pos_right hclose hpos

/-- Witness for C8's amended round-trip bound at `s = 1/2`. -/
theorem C8_pcm_roundtrip_witness :
    |((decodeFirstSample (f32_to_pcm_bytes [(1 : ℚ) / 2]) : ℚ) / 32767)
      - 1 / 2| < 1 / 32767 :=
  (C8_pcm_roundtrip ((1 : ℚ) / 2) (by norm_num) (by norm_num)).2

/-- C8 counterexample: the sample `s₀ = 65535/(65536·32767) ∈ [−1, 1]`
encodes to the zero `i16` (its scaled value `65535/65536` truncates to 0),
so the decoded value differs from `s₀` by `s₀ > 1/32768` — the claimed
`1/32768` bound fails. -/
theorem C8_counterexample :
    ((-1 : ℚ) ≤ 65535 / (65536 * 32767)) ∧
    ((65535 : ℚ) / (65536 * 32767) ≤ 1) ∧
    1 / 32768 <
      |((decodeFirstSample
          (f32_to_pcm_bytes [(65535 : ℚ) / (65536 * 32767)]) : ℚ) / 32767)
        - 65535 / (65536 * 32767)| := by
  refine ⟨by norm_num, by norm_num, ?_⟩
  have h1 : clampUnit ((65535 : ℚ) / (65536 * 32767))
      = (65535 : ℚ) / (65536 * 32767) := by
    unfold clampUnit
    rw [if_neg (by norm_num), if_neg (by norm_num)]
  have h2 : ((65535 : ℚ) / (65536 * 32767)) * 32767 = 65535 / 65536 := by
    norm_num
  have h3 : truncToZero ((65535 : ℚ) / 65536) = 0 := by
    rw [truncToZero_eq, if_pos (by norm_num)]
    rw [Int.floor_eq_iff]
    constructor <;> norm_num
  have h4 : f32_to_i16_sample ((65535 : ℚ) / (65536 * 32767)) = 0 := by
    unfold f32_to_i16_sample
    rw [h1, h2, h3]
    rfl
  have hbytes : f32_to_pcm_bytes [(65535 : ℚ) / (65536 * 32767)] = [0, 0] := by
    simp [f32_to_pcm_bytes, f32_to_i16, h4]
    rfl
  rw [hbytes]
  have hdec : decodeFirstSample [0, 0] = 0 := rfl
  rw [hdec]
  rw [show ((0 : ℤ) : ℚ) / 32767 - 65535 / (65536 * 32767)
      = -(65535 / (65536 * 32767) : ℚ) by push_cast; ring]
  rw [abs_neg, abs_of_pos (by norm_num)]
  norm_num

end Outreach
